import Mathlib

/-!
Verification of the route-visualization pipeline: the location extraction of
script.js, the frontend router orchestration, and the directions/geocoding
proxies of the three deployment targets (per-route edge functions, the two
worker dispatchers, and the express server).
-/

namespace RouteViz

/-! ## Character classes and trimming (script.js string handling) -/

/-- Whitespace as matched by the regex class used in script.js (ASCII range;
the inputs of this development contain no unicode spaces). -/
def isWs (c : Char) : Bool :=
  c == ' ' || c == '\t' || c == '\n' || c == '\r' || c == '\x0b' || c == '\x0c'

/-- Trailing sentence punctuation stripped by the first replace step. -/
def isPunct (c : Char) : Bool := c == '.' || c == '!' || c == '?'

/-- Case-insensitive match of the two letters of the word "to". -/
def isTo (t o : Char) : Bool := (t == 't' || t == 'T') && (o == 'o' || o == 'O')

def trimL (cs : List Char) : List Char := cs.dropWhile isWs

def trimR (cs : List Char) : List Char := (cs.reverse.dropWhile isWs).reverse

/-- Model of JavaScript trim, both ends. -/
def trimBoth (cs : List Char) : List Char := trimR (trimL cs)

/-- Model of removing one maximal trailing run of the characters period, bang,
question mark. -/
def stripTrailingPunct (cs : List Char) : List Char := (cs.reverse.dropWhile isPunct).reverse

/-- Model of lowercasing the text and testing for the prefix "from "
(five characters). -/
def startsWithFromCI (cs : List Char) : Bool :=
  match cs with
  | f :: r :: o :: m :: sp :: _ =>
    (f.toLower == 'f') && (r.toLower == 'r') && (o.toLower == 'o') &&
      (m.toLower == 'm') && (sp == ' ')
  | _ => false

/-! ## The separator scanner: split on whitespace-"to"-whitespace, case-insensitive -/

/-- Attempt to match the separator (one or more whitespace characters, the word
"to" case-insensitively, one or more whitespace characters) at the head of the
list; on success return the remainder after the greedy match, exactly as the
regex engine consumes it. -/
def matchSep : List Char → Option (List Char)
  | [] => none
  | c :: cs =>
    if isWs c then
      match cs.dropWhile isWs with
      | t :: o :: r0 :: rest2 =>
        if isTo t o && isWs r0 then some (rest2.dropWhile isWs) else none
      | _ => none
    else none

/-- Left-to-right scan implementing the split on the separator; the fuel is
always supplied strictly larger than the scanned length, so the zero-fuel
branch is unreachable.  Structural recursion on the fuel keeps every
application kernel-reducible. -/
def splitGoF : Nat → List Char → List Char → List (List Char)
  | 0, acc, _ => [acc.reverse]
  | _ + 1, acc, [] => [acc.reverse]
  | fuel + 1, acc, c :: cs =>
    match matchSep (c :: cs) with
    | some rest => acc.reverse :: splitGoF fuel [] rest
    | none => splitGoF fuel (c :: acc) cs

def splitOnTo (cs : List Char) : List (List Char) := splitGoF (cs.length + 1) [] cs

/-- The preparation steps preceding the split in the frontend extractor: trim
the input, strip trailing punctuation and trim, strip a case-insensitive
"from " prefix of five characters and trim. -/
def preprocess (input : String) : List Char :=
  let s1 := trimBoth input.data
  let s2 := trimBoth (stripTrailingPunct s1)
  if startsWithFromCI s2 then trimBoth (s2.drop 5) else s2

/-- The deterministic location splitter of the frontend (script.js,
getRouteCoordinates string branch): prepare the input, split on the
separator, trim every piece and drop the empty ones. -/
def extractViaPattern (input : String) : List String :=
  (((splitOnTo (preprocess input)).map trimBoth).filter (fun p => !p.isEmpty)).map
    (fun p => String.mk p)

/-! ## Auxiliary decidable predicates about the separator, used in statements -/

/-- No suffix of the list begins with a separator match, so the scanner keeps
the list in one piece. -/
def noSepB : List Char → Bool
  | [] => true
  | c :: cs => (matchSep (c :: cs)).isNone && noSepB cs

/-- The list is exactly a nonempty whitespace run followed by the word "to". -/
def wsToWhole : List Char → Bool
  | [] => false
  | c :: rest =>
    isWs c &&
      (match rest.dropWhile isWs with
       | [t, o] => isTo t o
       | _ => false)

/-- Some suffix of the list is a whitespace run followed by "to" reaching the
end of the list. -/
def hasWsToSuffix : List Char → Bool
  | [] => false
  | c :: cs => wsToWhole (c :: cs) || hasWsToSuffix cs

def endsWithPunct (cs : List Char) : Bool :=
  match cs.getLast? with
  | some c => isPunct c
  | none => false

/-- The literal four-character substring space-t-o-space occurs somewhere. -/
def containsLiteralTo : List Char → Bool
  | ' ' :: 't' :: 'o' :: ' ' :: _ => true
  | _ :: cs => containsLiteralTo cs
  | [] => false

/-! ## Shared data of the proxies -/

abbrev Coord := Int × Int

structure Route where
  geometry : List Coord
  deriving Repr, DecidableEq

structure DirUpResp where
  ok : Bool
  status : Nat
  code : String
  routes : List Route
  deriving Repr, DecidableEq

structure DirRequest where
  profile : String
  coords : List Coord
  deriving Repr, DecidableEq

inductive DirResult
  | route (r : Route)
  | err (status : Nat) (msg : String)
  deriving Repr, DecidableEq

/-- The coordinates field of a directions-proxy request body: missing or
otherwise falsy, a truthy non-array value, or an actual array. -/
inductive CoordField
  | absent
  | nonArray
  | arr (cs : List Coord)
  deriving Repr, DecidableEq

def validProfiles : List String := ["driving", "walking", "cycling"]

/-- Profile normalisation of the per-route directions function: synonym
mapping for walking and cycling, pass-through of valid profiles, default
driving. -/
def normalizeProfile (profile : String) : String :=
  if profile = "walking" ∨ profile = "walk" ∨ profile = "on foot" then "walking"
  else if profile = "cycling" ∨ profile = "bicycle" ∨ profile = "bike" then "cycling"
  else if validProfiles.contains profile then profile
  else "driving"

/-! ## Directions proxy, per-route edge function (functions/api/mapbox-directions.js) -/

/-- The retry helper of the per-route directions function: a second upstream
call with the identical url and parameters; if that one fails with a 422 and
the profile is walking or cycling, a final call with only the first and last
coordinates.  The second component lists the upstream requests issued (the
query parameters are the same constants on every call, so a request is its
profile and its waypoint list). -/
def retryDirectionsRequest (cs : List Coord) (np : String) (up : Nat → DirUpResp) :
    DirResult × List DirRequest :=
  if (up 1).ok then
    match (up 1).routes.head? with
    | some r => (DirResult.route r, [⟨np, cs⟩])
    | none => (DirResult.err 404 "No routes found between the specified locations", [⟨np, cs⟩])
  else if (np = "walking" ∨ np = "cycling") ∧ (up 1).status = 422 then
    if 2 ≤ cs.length then
      if (up 2).ok then
        match (up 2).routes.head? with
        | some r =>
          (DirResult.route r, [⟨np, cs⟩, ⟨np, [cs.headD (0, 0), cs.getLastD (0, 0)]⟩])
        | none =>
          (DirResult.err (up 1).status "Failed to get directions on retry",
            [⟨np, cs⟩, ⟨np, [cs.headD (0, 0), cs.getLastD (0, 0)]⟩])
      else
        (DirResult.err (up 1).status "Failed to get directions on retry",
          [⟨np, cs⟩, ⟨np, [cs.headD (0, 0), cs.getLastD (0, 0)]⟩])
    else (DirResult.err (up 1).status "Failed to get directions on retry", [⟨np, cs⟩])
  else (DirResult.err (up 1).status "Failed to get directions on retry", [⟨np, cs⟩])

/-- The per-route directions function: profile normalisation, coordinates
guard, one upstream call, retry only on a 422 with code InvalidInput.
The oracle up gives the upstream answer to the n-th call of this invocation. -/
def dirOnRequestPost (cf : CoordField) (profile : String) (up : Nat → DirUpResp) :
    DirResult × List DirRequest :=
  match cf with
  | CoordField.absent => (DirResult.err 400 "At least two valid coordinates are required", [])
  | CoordField.nonArray => (DirResult.err 400 "At least two valid coordinates are required", [])
  | CoordField.arr cs =>
    if cs.length < 2 then (DirResult.err 400 "At least two valid coordinates are required", [])
    else if (up 0).ok then
      match (up 0).routes.head? with
      | some r => (DirResult.route r, [⟨normalizeProfile profile, cs⟩])
      | none =>
        (DirResult.err 404 "No routes found between the specified locations",
          [⟨normalizeProfile profile, cs⟩])
    else if (up 0).status = 422 ∧ (up 0).code = "InvalidInput" then
      ((retryDirectionsRequest cs (normalizeProfile profile) up).1,
        ⟨normalizeProfile profile, cs⟩ :: (retryDirectionsRequest cs (normalizeProfile profile) up).2)
    else (DirResult.err (up 0).status "Failed to get directions", [⟨normalizeProfile profile, cs⟩])

/-! ## Directions proxy, single-dispatcher worker (worker.js) -/

/-- The retry helper of worker.js: one retry with the same url and parameters,
no further fallback of any kind. -/
def workerRetryDirections (cs : List Coord) (profile : String) (up : Nat → DirUpResp) :
    DirResult × List DirRequest :=
  if (up 1).ok then
    match (up 1).routes.head? with
    | some r => (DirResult.route r, [⟨profile, cs⟩])
    | none => (DirResult.err 404 "No routes found between the specified locations", [⟨profile, cs⟩])
  else (DirResult.err (up 1).status "Failed to get directions on retry", [⟨profile, cs⟩])

/-- worker.js handleMapboxDirections: same proxy shape as the per-route
function but with no profile normalisation at all; the raw profile goes into
the upstream url. -/
def workerHandleDirections (cf : CoordField) (profile : String) (up : Nat → DirUpResp) :
    DirResult × List DirRequest :=
  match cf with
  | CoordField.absent => (DirResult.err 400 "At least two valid coordinates are required", [])
  | CoordField.nonArray => (DirResult.err 400 "At least two valid coordinates are required", [])
  | CoordField.arr cs =>
    if cs.length < 2 then (DirResult.err 400 "At least two valid coordinates are required", [])
    else if (up 0).ok then
      match (up 0).routes.head? with
      | some r => (DirResult.route r, [⟨profile, cs⟩])
      | none =>
        (DirResult.err 404 "No routes found between the specified locations", [⟨profile, cs⟩])
    else if (up 0).status = 422 ∧ (up 0).code = "InvalidInput" then
      ((workerRetryDirections cs profile up).1,
        ⟨profile, cs⟩ :: (workerRetryDirections cs profile up).2)
    else (DirResult.err (up 0).status "Failed to get directions", [⟨profile, cs⟩])

/-- api/worker.js handleMapboxDirections: verbatim duplicate of the worker.js
handler, kept as the third deployment target. -/
def apiWorkerHandleDirections (cf : CoordField) (profile : String) (up : Nat → DirUpResp) :
    DirResult × List DirRequest :=
  workerHandleDirections cf profile up

/-! ## Directions proxy, express server (server.js) -/

/-- Settled outcome of the axios call in server.js: axios resolves only for
2xx responses; other cases arrive as the error branches. -/
inductive AxiosOutcome
  | resp (status : Nat) (routes : List Route)
  | httpError (status : Nat)
  | noResponse
  | setupError
  deriving Repr, DecidableEq

/-- server.js directions endpoint: coordinates guard, a single axios call with
no retry of any kind; a setup error happens before the upstream request is
issued. -/
def serverDirections (cf : CoordField) (profile : String) (ax : AxiosOutcome) :
    DirResult × List DirRequest :=
  match cf with
  | CoordField.absent =>
    (DirResult.err 400 "Invalid coordinates. At least 2 coordinates are required.", [])
  | CoordField.nonArray =>
    (DirResult.err 400 "Invalid coordinates. At least 2 coordinates are required.", [])
  | CoordField.arr cs =>
    if cs.length < 2 then
      (DirResult.err 400 "Invalid coordinates. At least 2 coordinates are required.", [])
    else
      match ax with
      | AxiosOutcome.resp _ routes =>
        match routes.head? with
        | none => (DirResult.err 404 "No route found between the specified locations",
            [⟨profile, cs⟩])
        | some r => (DirResult.route r, [⟨profile, cs⟩])
      | AxiosOutcome.httpError s => (DirResult.err s "Mapbox API error", [⟨profile, cs⟩])
      | AxiosOutcome.noResponse =>
        (DirResult.err 504 "No response received from Mapbox API", [⟨profile, cs⟩])
      | AxiosOutcome.setupError =>
        (DirResult.err 500 "Error setting up Mapbox API request", [])

/-! ## Geocoding proxy (per-route edge function) -/

structure GeoUpResp where
  ok : Bool
  status : Nat
  features : List Coord
  deriving Repr, DecidableEq

inductive GeoProxyResult
  | found (coordinates : Coord)
  | err (status : Nat) (msg : String)
  deriving Repr, DecidableEq

/-- The geocoding function: an empty location is a 400, an upstream failure
passes its status through, zero features is a 404 not-found, otherwise the
center of the first feature is returned. -/
def geocodeOnRequestPost (location : String) (upresp : GeoUpResp) : GeoProxyResult :=
  if location = "" then GeoProxyResult.err 400 "Location is required"
  else if upresp.ok = false then GeoProxyResult.err upresp.status "Failed to geocode location"
  else
    match upresp.features.head? with
    | some c => GeoProxyResult.found c
    | none => GeoProxyResult.err 404 "No results found for this location"

/-! ## Frontend router orchestration (script.js) -/

/-- Response of a frontend fetch to the directions proxy, as the frontend
consumes it. -/
structure DirProxyResp where
  ok : Bool
  routeGeometry : Option (List Coord)
  errMsg : Option String
  deriving Repr, DecidableEq

inductive FrontOutcome
  | inputError
  | resolveError (msg : String)
  | needTwo
  | dirError (msg : String)
  | invalidRouteData
  | routed (geometry : List Coord)
  deriving Repr, DecidableEq

def unableMsg (l : String) : String := "Unable to find \"" ++ l ++ "\" on the map"

/-- Geocoding of every location of one search, order-preserving; every
per-location failure is rethrown client-side as the unable-to-find message, and
the first (in list order) failing location's message is the aggregate
rejection. -/
def resolveAll (geo : String → Option Coord) : List String → Except String (List Coord)
  | [] => Except.ok []
  | l :: ls =>
    match geo l with
    | none => Except.error (unableMsg l)
    | some c =>
      match resolveAll geo ls with
      | Except.error e => Except.error e
      | Except.ok cs => Except.ok (c :: cs)

/-- Core of getRouteCoordinates once the locations list is in hand: the
at-least-one guard, geocoding of all locations, the two-coordinate
requirement, then one directions-proxy call.  The second component lists the
bodies (coordinates and profile) of the directions calls issued. -/
def routerCore (locations : List String) (transportMode : String)
    (geo : String → Option Coord) (dir : List Coord → String → DirProxyResp) :
    FrontOutcome × List (List Coord × String) :=
  if locations.length < 1 then (FrontOutcome.inputError, [])
  else
    match resolveAll geo locations with
    | Except.error e => (FrontOutcome.resolveError e, [])
    | Except.ok coords =>
      if coords.length < 2 then (FrontOutcome.needTwo, [])
      else
        if (dir coords transportMode).ok then
          match (dir coords transportMode).routeGeometry with
          | some g => (FrontOutcome.routed g, [(coords, transportMode)])
          | none => (FrontOutcome.invalidRouteData, [(coords, transportMode)])
        else
          match (dir coords transportMode).errMsg with
          | some m => (FrontOutcome.dirError m, [(coords, transportMode)])
          | none => (FrontOutcome.dirError "Unable to get directions", [(coords, transportMode)])

/-- The transport mode actually sent: the preferences' transportMode when the
object is present and the field is a nonempty string, otherwise driving. -/
def effectiveMode : Option String → String
  | none => "driving"
  | some m => if m = "" then "driving" else m

/-- getRouteCoordinates called with an already-extracted array of locations. -/
def getRouteCoordinatesArr (locations : List String) (prefs : Option String)
    (geo : String → Option Coord) (dir : List Coord → String → DirProxyResp) :
    FrontOutcome × List (List Coord × String) :=
  routerCore locations (effectiveMode prefs) geo dir

/-- getRouteCoordinates called with a raw string: the pattern extraction runs
first and the preferences default to driving. -/
def getRouteCoordinatesStr (input : String)
    (geo : String → Option Coord) (dir : List Coord → String → DirProxyResp) :
    FrontOutcome × List (List Coord × String) :=
  routerCore (extractViaPattern input) "driving" geo dir

/-- Settled outcome of racing the language-model extraction against the 10
second timeout: a parsed result, or any failure (rejection or timeout). -/
inductive NlpResult
  | ok (locations : List String) (transportMode : Option String)
  | failed
  deriving Repr

/-- Modelled from the spec: extractLocationsWithRegex is imported from nlp.js,
which is not among the sources; the spec's regex fallback strategy is the
deterministic pattern extractor, so this function is modelled as
extractViaPattern. -/
def extractLocationsWithRegex (input : String) : List String := extractViaPattern input

/-- The search-button click handler: on a settled successful extraction with
locations, use them with the extracted preferences; on a success without
locations fall through to the direct string path; on any failure or timeout,
run the regex extractor and use its output when it has at least two names,
otherwise the direct string path.  No failure branch raises a user alert. -/
def clickHandler (input : String) (nlp : NlpResult)
    (geo : String → Option Coord) (dir : List Coord → String → DirProxyResp) :
    FrontOutcome × List (List Coord × String) :=
  match nlp with
  | NlpResult.ok locs mode =>
    if 0 < locs.length then getRouteCoordinatesArr locs mode geo dir
    else getRouteCoordinatesStr input geo dir
  | NlpResult.failed =>
    if 2 ≤ (extractLocationsWithRegex input).length then
      getRouteCoordinatesArr (extractLocationsWithRegex input) none geo dir
    else getRouteCoordinatesStr input geo dir

/-! ## Facts about dropWhile and trimming -/

theorem dropWhile_length_le (p : Char → Bool) :
    ∀ cs : List Char, (cs.dropWhile p).length ≤ cs.length
  | [] => le_refl _
  | c :: cs => by
    rw [List.dropWhile_cons]
    split
    · exact le_trans (dropWhile_length_le p cs) (Nat.le_succ _)
    · exact le_refl _

theorem dropWhile_head_false (p : Char → Bool) :
    ∀ (cs : List Char) (c : Char), (cs.dropWhile p).head? = some c → p c = false
  | [], c, h => by simp at h
  | a :: cs, c, h => by
    rw [List.dropWhile_cons] at h
    by_cases hp : p a
    · rw [if_pos hp] at h
      exact dropWhile_head_false p cs c h
    · rw [if_neg hp] at h
      simp only [List.head?_cons, Option.some.injEq] at h
      subst h
      simpa using hp

theorem dropWhile_eq_drop (p : Char → Bool) :
    ∀ cs : List Char, ∃ k, cs.dropWhile p = cs.drop k
  | [] => ⟨0, rfl⟩
  | c :: cs => by
    rw [List.dropWhile_cons]
    by_cases hp : p c
    · rcases dropWhile_eq_drop p cs with ⟨k, hk⟩
      exact ⟨k + 1, by simpa [hp] using hk⟩
    · exact ⟨0, by simp [hp]⟩

theorem dropWhile_eq_self_of_head (p : Char → Bool) {cs : List Char}
    (h : ∀ c, cs.head? = some c → p c = false) : cs.dropWhile p = cs := by
  cases cs with
  | nil => rfl
  | cons a l => simp [List.dropWhile_cons, h a rfl]

theorem trimR_eq_self {cs : List Char} (h : ∀ c, cs.getLast? = some c → isWs c = false) :
    trimR cs = cs := by
  unfold trimR
  rw [dropWhile_eq_self_of_head isWs (fun c hc => h c (by rwa [List.head?_reverse] at hc)),
    List.reverse_reverse]

theorem getLast_trimR_false {cs : List Char} {c : Char}
    (h : (trimR cs).getLast? = some c) : isWs c = false := by
  unfold trimR at h
  rw [List.getLast?_reverse] at h
  exact dropWhile_head_false isWs cs.reverse c h

theorem trimR_append (cs : List Char) :
    ∃ t, cs = trimR cs ++ t ∧ ∀ c ∈ t, isWs c = true := by
  refine ⟨(cs.reverse.takeWhile isWs).reverse, ?_, ?_⟩
  · conv_lhs => rw [← List.reverse_reverse cs,
      ← List.takeWhile_append_dropWhile isWs cs.reverse]
    rw [List.reverse_append]
    rfl
  · intro c hc
    rw [List.mem_reverse] at hc
    exact List.mem_takeWhile_imp hc

theorem head?_trimR {cs : List Char} {c : Char} (h : (trimR cs).head? = some c) :
    cs.head? = some c := by
  rcases trimR_append cs with ⟨t, he, -⟩
  rw [he]
  cases htr : trimR cs with
  | nil => rw [htr] at h; simp at h
  | cons a l =>
    rw [htr] at h
    simp only [List.head?_cons, Option.some.injEq] at h
    simp [h]

theorem head?_trimBoth_false {cs : List Char} {c : Char}
    (h : (trimBoth cs).head? = some c) : isWs c = false := by
  have h0 : (trimR (trimL cs)).head? = some c := h
  have h2 : (trimL cs).head? = some c := head?_trimR h0
  unfold trimL at h2
  exact dropWhile_head_false isWs cs c h2

theorem getLast?_trimBoth_false {cs : List Char} {c : Char}
    (h : (trimBoth cs).getLast? = some c) : isWs c = false :=
  getLast_trimR_false h

theorem trimBoth_eq_self {cs : List Char}
    (hh : ∀ c, cs.head? = some c → isWs c = false)
    (hl : ∀ c, cs.getLast? = some c → isWs c = false) : trimBoth cs = cs := by
  unfold trimBoth trimL
  rw [dropWhile_eq_self_of_head isWs hh]
  exact trimR_eq_self hl

theorem trimBoth_idem (cs : List Char) : trimBoth (trimBoth cs) = trimBoth cs :=
  trimBoth_eq_self (fun _ h => head?_trimBoth_false h) (fun _ h => getLast?_trimBoth_false h)

theorem head_false_of_trimBoth_eq {cs : List Char} (h : trimBoth cs = cs) :
    ∀ c, cs.head? = some c → isWs c = false :=
  fun c hc => head?_trimBoth_false (h ▸ hc)

theorem getLast_false_of_trimBoth_eq {cs : List Char} (h : trimBoth cs = cs) :
    ∀ c, cs.getLast? = some c → isWs c = false :=
  fun c hc => getLast?_trimBoth_false (h ▸ hc)

theorem stripTrailingPunct_eq_self {cs : List Char}
    (h : endsWithPunct cs = false) : stripTrailingPunct cs = cs := by
  unfold stripTrailingPunct
  rw [dropWhile_eq_self_of_head isPunct ?_, List.reverse_reverse]
  intro c hc
  rw [List.head?_reverse] at hc
  unfold endsWithPunct at h
  rw [hc] at h
  simpa using h

/-! ## Facts about the separator scanner -/

theorem matchSep_some_iff {cs r : List Char} :
    matchSep cs = some r ↔
      ∃ c u1 t o r0 rest2, cs = c :: u1 ∧ isWs c = true ∧
        u1.dropWhile isWs = t :: o :: r0 :: rest2 ∧ (isTo t o && isWs r0) = true ∧
        r = rest2.dropWhile isWs := by
  constructor
  · intro h
    cases cs with
    | nil => simp [matchSep] at h
    | cons c u1 =>
      by_cases hws : isWs c
      swap
      · simp [matchSep, hws] at h
      cases hd : u1.dropWhile isWs with
      | nil => simp [matchSep, hws, hd] at h
      | cons t d1 =>
        cases d1 with
        | nil => simp [matchSep, hws, hd] at h
        | cons o d2 =>
          cases d2 with
          | nil => simp [matchSep, hws, hd] at h
          | cons r0 rest2 =>
            by_cases hc : isTo t o && isWs r0
            · have : r = rest2.dropWhile isWs := by
                simp [matchSep, hws, hd, hc] at h
                exact h.symm
              exact ⟨c, u1, t, o, r0, rest2, rfl, hws, hd, hc, this⟩
            · simp [matchSep, hws, hd, hc] at h
  · rintro ⟨c, u1, t, o, r0, rest2, rfl, hws, hd, hc, rfl⟩
    simp [matchSep, hws, hd, hc]

theorem matchSep_some_lt {cs r : List Char} (h : matchSep cs = some r) :
    r.length < cs.length := by
  rcases matchSep_some_iff.mp h with ⟨c, u1, t, o, r0, rest2, rfl, -, hd, -, rfl⟩
  have h1 : (t :: o :: r0 :: rest2).length ≤ u1.length := by
    rw [← hd]; exact dropWhile_length_le isWs u1
  have h2 : (rest2.dropWhile isWs).length ≤ rest2.length := dropWhile_length_le isWs rest2
  simp only [List.length_cons] at h1 ⊢
  omega

/-- A successful separator match at the head survives appending on the right. -/
theorem matchSep_extend {u r : List Char} (v : List Char) (h : matchSep u = some r) :
    ∃ r2, matchSep (u ++ v) = some r2 := by
  rcases matchSep_some_iff.mp h with ⟨c, u1, t, o, r0, rest2, rfl, hws, hd, hc, rfl⟩
  refine ⟨(rest2 ++ v).dropWhile isWs, matchSep_some_iff.mpr ?_⟩
  refine ⟨c, u1 ++ v, t, o, r0, rest2 ++ v, by simp, hws, ?_, hc, rfl⟩
  rw [List.dropWhile_append, hd]
  simp

theorem matchSep_none_of_extend_none {u v : List Char}
    (h : matchSep (u ++ v) = none) : matchSep u = none := by
  cases hm : matchSep u with
  | none => rfl
  | some r =>
    rcases matchSep_extend v hm with ⟨r2, h2⟩
    rw [h2] at h
    exact absurd h (by simp)

/-- Appending a whitespace-headed tail to a list whose last character is not
whitespace, which matches no separator and is not itself a whitespace run
followed by "to", still matches no separator. -/
theorem matchSep_boundary {u : List Char} (v : List Char) (hne : u ≠ [])
    (hlast : ∀ c, u.getLast? = some c → isWs c = false)
    (hnone : matchSep u = none) (hwhole : wsToWhole u = false) :
    matchSep (u ++ ' ' :: v) = none := by
  cases u with
  | nil => exact absurd rfl hne
  | cons c u1 =>
    by_cases hws : isWs c
    swap
    · rw [List.cons_append]
      simp [matchSep, hws]
    cases hm : matchSep ((c :: u1) ++ ' ' :: v) with
    | none => rfl
    | some r =>
      exfalso
      rcases matchSep_some_iff.mp hm with ⟨c2, w1, t, o, r0, rest2, heq, -, hd, hc, -⟩
      rw [List.cons_append] at heq
      injection heq with hc2 hw1
      subst hc2
      subst hw1
      cases hd1 : u1.dropWhile isWs with
      | nil =>
        -- then every character of u is whitespace, contradicting hlast
        have hall : ∀ x ∈ u1, isWs x = true := by
          intro x hx
          have hdec := List.takeWhile_append_dropWhile isWs u1
          rw [hd1, List.append_nil] at hdec
          rw [← hdec] at hx
          exact List.mem_takeWhile_imp hx
        have hlast2 : ∀ x ∈ c :: u1, isWs x = true := by
          intro x hx
          rcases List.mem_cons.mp hx with rfl | hx2
          · exact hws
          · exact hall x hx2
        cases hg : (c :: u1).getLast? with
        | none => simp at hg
        | some g =>
          have := hlast g hg
          have := hlast2 g (List.mem_of_getLast?_eq_some hg)
          simp_all
      | cons e1 d1 =>
        have hd2 : (u1 ++ ' ' :: v).dropWhile isWs = (e1 :: d1) ++ ' ' :: v := by
          rw [List.dropWhile_append, hd1]
          simp
        rw [hd2] at hd
        cases d1 with
        | nil =>
          -- e1 followed by the separator space: the "o" slot holds a space
          simp only [List.cons_append, List.nil_append] at hd
          injection hd with h1 hd
          injection hd with h2 hd
          subst h1
          subst h2
          simp [isTo] at hc
        | cons e2 d2 =>
          cases d2 with
          | nil =>
            -- u ends in a whitespace run followed by two letters forming "to"
            simp only [List.cons_append, List.nil_append] at hd
            injection hd with h1 hd
            injection hd with h2 hd
            injection hd with h3 hd
            subst h1
            subst h2
            have hc1 : isTo e1 e2 = true := by
              have h4 := hc
              simp only [Bool.and_eq_true] at h4
              exact h4.1
            have hwt : wsToWhole (c :: u1) = true := by
              simp [wsToWhole, hws, hd1, hc1]
            rw [hwt] at hwhole
            exact absurd hwhole (by simp)
          | cons e3 d3 =>
            -- the whole candidate match lies inside u, so u matches after all
            simp only [List.cons_append] at hd
            injection hd with h1 hd
            injection hd with h2 hd
            injection hd with h3 hd
            subst h1
            subst h2
            subst h3
            have : matchSep (c :: u1) = some (d3.dropWhile isWs) :=
              matchSep_some_iff.mpr ⟨c, u1, e1, e2, e3, d3, rfl, hws, hd1, hc, rfl⟩
            rw [this] at hnone
            exact absurd hnone (by simp)

/-! ## Facts about the splitter -/

theorem noSepB_iff : ∀ cs : List Char, noSepB cs = true ↔ ∀ n, matchSep (cs.drop n) = none
  | [] => by
    simp only [noSepB, true_iff]
    intro n
    rw [List.drop_nil]
    rfl
  | c :: cs => by
    simp only [noSepB, Bool.and_eq_true, Option.isNone_iff_eq_none]
    constructor
    · rintro ⟨h1, h2⟩ n
      cases n with
      | zero => simpa using h1
      | succ n =>
        rw [List.drop_succ_cons]
        exact (noSepB_iff cs).mp h2 n
    · intro h
      refine ⟨by simpa using h 0, (noSepB_iff cs).mpr fun n => ?_⟩
      simpa using h (n + 1)

theorem wsToWhole_drop_false : ∀ cs : List Char, hasWsToSuffix cs = false →
    ∀ n, wsToWhole (cs.drop n) = false
  | [], _, n => by rw [List.drop_nil]; rfl
  | c :: cs, h, n => by
    have h2 : wsToWhole (c :: cs) = false ∧ hasWsToSuffix cs = false := by
      have h3 := h
      rw [hasWsToSuffix] at h3
      simpa using h3
    cases n with
    | zero => exact h2.1
    | succ n =>
      rw [List.drop_succ_cons]
      exact wsToWhole_drop_false cs h2.2 n

theorem splitGoF_fuel : ∀ (f1 f2 : Nat) (acc cs : List Char),
    cs.length < f1 → cs.length < f2 → splitGoF f1 acc cs = splitGoF f2 acc cs
  | 0, _, _, _, h1, _ => absurd h1 (by omega)
  | _ + 1, 0, _, _, _, h2 => absurd h2 (by omega)
  | _ + 1, _ + 1, _, [], _, _ => rfl
  | f1 + 1, f2 + 1, acc, c :: cs, h1, h2 => by
    have hl1 : cs.length < f1 := by simp at h1; omega
    have hl2 : cs.length < f2 := by simp at h2; omega
    cases hm : matchSep (c :: cs) with
    | some rest =>
      have hr : rest.length < cs.length + 1 := by
        have := matchSep_some_lt hm
        simpa using this
      simp only [splitGoF, hm]
      rw [splitGoF_fuel f1 f2 [] rest (by omega) (by omega)]
    | none =>
      simp only [splitGoF, hm]
      exact splitGoF_fuel f1 f2 (c :: acc) cs hl1 hl2

theorem splitGoF_noSep : ∀ (fuel : Nat) (acc cs : List Char), cs.length < fuel →
    (∀ n, matchSep (cs.drop n) = none) → splitGoF fuel acc cs = [acc.reverse ++ cs]
  | 0, _, _, h, _ => absurd h (by omega)
  | _ + 1, acc, [], _, _ => by simp [splitGoF]
  | fuel + 1, acc, c :: cs, h, hn => by
    have h0 : matchSep (c :: cs) = none := by simpa using hn 0
    simp only [splitGoF, h0]
    rw [splitGoF_noSep fuel (c :: acc) cs (by simp at h; omega)
      (fun n => by simpa using hn (n + 1))]
    simp

theorem splitGoF_split : ∀ (as : List Char) (fuel : Nat) (acc bs : List Char),
    (as ++ ' ' :: 't' :: 'o' :: ' ' :: bs).length < fuel →
    (∀ n, n < as.length → matchSep ((as ++ ' ' :: 't' :: 'o' :: ' ' :: bs).drop n) = none) →
    matchSep (' ' :: 't' :: 'o' :: ' ' :: bs) = some bs →
    (∀ n, matchSep (bs.drop n) = none) →
    splitGoF fuel acc (as ++ ' ' :: 't' :: 'o' :: ' ' :: bs) = [acc.reverse ++ as, bs]
  | [], fuel, acc, bs, hf, _, h2, h3 => by
    cases fuel with
    | zero => exact absurd hf (by omega)
    | succ fuel =>
      simp only [List.nil_append] at hf ⊢
      simp only [splitGoF, h2]
      rw [splitGoF_noSep fuel [] bs (by simp at hf; omega) h3]
      simp
  | a :: as, fuel, acc, bs, hf, h1, h2, h3 => by
    cases fuel with
    | zero => exact absurd hf (by omega)
    | succ fuel =>
      have h0 : matchSep (a :: (as ++ ' ' :: 't' :: 'o' :: ' ' :: bs)) = none := by
        have h4 := h1 0 (by simp)
        simpa using h4
      rw [List.cons_append]
      simp only [splitGoF, h0]
      rw [splitGoF_split as fuel (a :: acc) bs (by simp at hf ⊢; omega)
        (fun n hn => by
          have h5 := h1 (n + 1) (by simp; omega)
          simpa using h5) h2 h3]
      simp

theorem splitGoF_pieces (fuel : Nat) : ∀ (acc cs : List Char), cs.length < fuel →
    (∀ i, i < acc.length → matchSep (acc.reverse.drop i ++ cs) = none) →
    ∀ P ∈ splitGoF fuel acc cs, ∀ n, matchSep (P.drop n) = none := by
  induction fuel with
  | zero =>
    intro acc cs h _ P hP n
    exact absurd h (by omega)
  | succ fuel ih =>
    intro acc cs hf hinv P hP n
    cases cs with
    | nil =>
      have hP2 : P = acc.reverse := by simpa [splitGoF] using hP
      subst hP2
      by_cases hn : n < acc.length
      · have := hinv n hn
        rw [List.append_nil] at this
        exact this
      · rw [List.drop_eq_nil_of_le (by simp; omega)]
        rfl
    | cons c cs1 =>
      cases hm : matchSep (c :: cs1) with
      | some rest =>
        rw [show splitGoF (fuel + 1) acc (c :: cs1) = acc.reverse :: splitGoF fuel [] rest by
          simp [splitGoF, hm]] at hP
        rcases List.mem_cons.mp hP with rfl | hP2
        · by_cases hn : n < acc.length
          · exact matchSep_none_of_extend_none (hinv n hn)
          · rw [List.drop_eq_nil_of_le (by simp; omega)]
            rfl
        · have hr : rest.length < fuel := by
            have h5 := matchSep_some_lt hm
            simp at h5 hf
            omega
          exact ih [] rest hr (by simp) P hP2 n
      | none =>
        rw [show splitGoF (fuel + 1) acc (c :: cs1) = splitGoF fuel (c :: acc) cs1 by
          simp [splitGoF, hm]] at hP
        refine ih (c :: acc) cs1 (by simp at hf; omega) ?_ P hP n
        intro i hi
        have hi2 : i ≤ acc.reverse.length := by simp at hi ⊢; omega
        rw [List.reverse_cons, List.drop_append_of_le_length hi2]
        by_cases hieq : i < acc.length
        · have h6 := hinv i hieq
          rw [List.append_assoc, List.singleton_append]
          exact h6
        · have : acc.reverse.drop i = [] :=
            List.drop_eq_nil_of_le (by simp; omega)
          rw [this, List.nil_append, List.singleton_append]
          exact hm

theorem noSep_trimBoth {cs : List Char} (h : ∀ n, matchSep (cs.drop n) = none) :
    ∀ n, matchSep ((trimBoth cs).drop n) = none := by
  have hQ : ∀ n, matchSep ((trimL cs).drop n) = none := by
    rcases dropWhile_eq_drop isWs cs with ⟨k, hk⟩
    intro n
    rw [show trimL cs = cs.drop k from hk, List.drop_drop]
    exact h (k + n)
  rcases trimR_append (trimL cs) with ⟨t, he, -⟩
  intro n
  show matchSep ((trimR (trimL cs)).drop n) = none
  by_cases hn : n ≤ (trimR (trimL cs)).length
  · cases hm : matchSep ((trimR (trimL cs)).drop n) with
    | none => rfl
    | some r =>
      exfalso
      rcases matchSep_extend t hm with ⟨r2, h2⟩
      have h7 : (trimR (trimL cs) ++ t).drop n = (trimR (trimL cs)).drop n ++ t :=
        List.drop_append_of_le_length hn
      rw [← h7, ← he, hQ n] at h2
      exact absurd h2 (by simp)
  · rw [List.drop_eq_nil_of_le (by omega)]
    rfl

/-! ## Facts about the whole extractor -/

theorem mk_data (s : String) : String.mk s.data = s := rfl

theorem getLast?_drop_of_lt : ∀ (cs : List Char) (n : Nat), n < cs.length →
    (cs.drop n).getLast? = cs.getLast?
  | [], n, h => by simp at h
  | _ :: _, 0, _ => rfl
  | c :: cs, n + 1, h => by
    rw [List.drop_succ_cons]
    have hlt : n < cs.length := by simp at h; omega
    rw [getLast?_drop_of_lt cs n hlt]
    cases cs with
    | nil => simp at hlt
    | cons c2 cs2 => rw [List.getLast?_cons_cons]

/-- Every member of the filtered, trimmed split output is a nonempty trimmed
piece that contains no separator match anywhere. -/
theorem output_mem_shape {s3 q : List Char}
    (hq : q ∈ ((splitOnTo s3).map trimBoth).filter (fun p => !p.isEmpty)) :
    q ≠ [] ∧ trimBoth q = q ∧ (∀ n, matchSep (q.drop n) = none) := by
  rcases List.mem_filter.mp hq with ⟨hmem, hne⟩
  rcases List.mem_map.mp hmem with ⟨P, hP, rfl⟩
  have hP1 : P ∈ splitGoF (s3.length + 1) [] s3 := hP
  have hP2 : ∀ n, matchSep (P.drop n) = none :=
    splitGoF_pieces (s3.length + 1) [] s3 (by omega) (by simp) P hP1
  exact ⟨by simpa using hne, trimBoth_idem P, noSep_trimBoth hP2⟩

theorem preprocess_eq_self {N : String} (ht : trimBoth N.data = N.data)
    (hp : endsWithPunct N.data = false) (hf : startsWithFromCI N.data = false) :
    preprocess N = N.data := by
  unfold preprocess
  simp only [ht, stripTrailingPunct_eq_self hp, hf]
  simp

/-- Claim C9 (amended): re-running extractViaPattern on a single extracted
name returns it unchanged, provided the name does not itself begin with the
case-insensitive prefix "from " and does not end in one of the stripped
punctuation characters. -/
theorem C9_idempotent_on_singleton (text N : String)
    (h : extractViaPattern text = [N])
    (hf : startsWithFromCI N.data = false)
    (hp : endsWithPunct N.data = false) :
    extractViaPattern N = [N] := by
  have h0 : (((splitOnTo (preprocess text)).map trimBoth).filter
      (fun p => !p.isEmpty)).map (fun p => String.mk p) = [N] := h
  have hq : N.data ∈ ((splitOnTo (preprocess text)).map trimBoth).filter
      (fun p => !p.isEmpty) := by
    cases hl : ((splitOnTo (preprocess text)).map trimBoth).filter (fun p => !p.isEmpty) with
    | nil => rw [hl] at h0; simp at h0
    | cons q l3 =>
      rw [hl] at h0
      simp only [List.map_cons, List.cons.injEq] at h0
      have hq0 : q = N.data := by
        have h5 := congrArg String.data h0.1
        simpa using h5
      rw [hq0]
      exact List.mem_cons_self _ _
  rcases output_mem_shape hq with ⟨hne, ht, hsep⟩
  unfold extractViaPattern
  rw [preprocess_eq_self ht hp hf]
  rw [show splitOnTo N.data = [N.data] from
    splitGoF_noSep (N.data.length + 1) [] N.data (by omega) hsep]
  simp [ht, hne, mk_data]

theorem C9_witness : extractViaPattern "Paris" = ["Paris"] :=
  C9_idempotent_on_singleton "Paris" "Paris" (by decide) (by decide) (by decide)

/-- Claim C9 counterexample: a singleton output that begins with "From " is
changed by a second run, because the second run strips the prefix again. -/
theorem C9_counterexample :
    extractViaPattern "From From Paris" = ["From Paris"] ∧
    extractViaPattern "From Paris" = ["Paris"] ∧
    (["Paris"] : List String) ≠ ["From Paris"] := by decide

/-- Claim C3 (amended): for trimmed nonempty names A and B, where neither
contains a whitespace-"to"-whitespace separator, A does not end in a
whitespace run followed by "to", the combined text does not begin with the
case-insensitive prefix "from ", and B does not end in stripped punctuation,
extractViaPattern on the text A to B returns exactly the pair A, B. -/
theorem C3_pair_extraction (A B : String)
    (hA : A.data ≠ []) (hB : B.data ≠ [])
    (hAt : trimBoth A.data = A.data) (hBt : trimBoth B.data = B.data)
    (hAsep : noSepB A.data = true) (hBsep : noSepB B.data = true)
    (hAend : hasWsToSuffix A.data = false)
    (hFrom : startsWithFromCI (A.data ++ ' ' :: 't' :: 'o' :: ' ' :: B.data) = false)
    (hPunct : endsWithPunct B.data = false) :
    extractViaPattern (A ++ " to " ++ B) = [A, B] := by
  have hdata : (A ++ " to " ++ B).data = A.data ++ ' ' :: 't' :: 'o' :: ' ' :: B.data := by
    simp [String.data_append]
  have hlastS : (A.data ++ ' ' :: 't' :: 'o' :: ' ' :: B.data).getLast? = B.data.getLast? := by
    rw [List.getLast?_append_cons]
    rw [show (' ' :: 't' :: 'o' :: ' ' :: B.data) = [' ', 't', 'o', ' '] ++ B.data from rfl]
    exact List.getLast?_append_of_ne_nil _ hB
  have hheadS : (A.data ++ ' ' :: 't' :: 'o' :: ' ' :: B.data).head? = A.data.head? :=
    List.head?_append_of_ne_nil _ hA
  have htrimS : trimBoth (A.data ++ ' ' :: 't' :: 'o' :: ' ' :: B.data) =
      A.data ++ ' ' :: 't' :: 'o' :: ' ' :: B.data := by
    refine trimBoth_eq_self ?_ ?_
    · intro c hc
      rw [hheadS] at hc
      exact head_false_of_trimBoth_eq hAt c hc
    · intro c hc
      rw [hlastS] at hc
      exact getLast_false_of_trimBoth_eq hBt c hc
  have hpunctS : endsWithPunct (A.data ++ ' ' :: 't' :: 'o' :: ' ' :: B.data) = false := by
    unfold endsWithPunct
    rw [hlastS]
    unfold endsWithPunct at hPunct
    exact hPunct
  have hpre : preprocess (A ++ " to " ++ B) = A.data ++ ' ' :: 't' :: 'o' :: ' ' :: B.data := by
    unfold preprocess
    rw [hdata]
    simp only [htrimS, stripTrailingPunct_eq_self hpunctS, hFrom]
    simp
  have hH2 : matchSep (' ' :: 't' :: 'o' :: ' ' :: B.data) = some B.data := by
    refine matchSep_some_iff.mpr
      ⟨' ', 't' :: 'o' :: ' ' :: B.data, 't', 'o', ' ', B.data, rfl, by decide, ?_, by decide, ?_⟩
    · refine dropWhile_eq_self_of_head isWs fun c hc => ?_
      simp only [List.head?_cons, Option.some.injEq] at hc
      subst hc
      decide
    · exact (dropWhile_eq_self_of_head isWs (head_false_of_trimBoth_eq hBt)).symm
  have hH1 : ∀ n, n < A.data.length →
      matchSep ((A.data ++ ' ' :: 't' :: 'o' :: ' ' :: B.data).drop n) = none := by
    intro n hn
    rw [List.drop_append_of_le_length (le_of_lt hn)]
    refine matchSep_boundary ('t' :: 'o' :: ' ' :: B.data) ?_ ?_ ?_ ?_
    · intro hnil
      rw [List.drop_eq_nil_iff] at hnil
      omega
    · intro c hc
      rw [getLast?_drop_of_lt A.data n hn] at hc
      exact getLast_false_of_trimBoth_eq hAt c hc
    · exact (noSepB_iff A.data).mp hAsep n
    · exact wsToWhole_drop_false A.data hAend n
  have hsplit : splitOnTo (A.data ++ ' ' :: 't' :: 'o' :: ' ' :: B.data) = [A.data, B.data] := by
    unfold splitOnTo
    have h6 := splitGoF_split A.data
      ((A.data ++ ' ' :: 't' :: 'o' :: ' ' :: B.data).length + 1) [] B.data
      (by omega) hH1 hH2 ((noSepB_iff B.data).mp hBsep)
    simpa using h6
  unfold extractViaPattern
  rw [hpre, hsplit]
  simp [hAt, hBt, hA, hB, mk_data]

theorem C3_witness : extractViaPattern ("Paris" ++ " to " ++ "London") = ["Paris", "London"] :=
  C3_pair_extraction "Paris" "London" (by decide) (by decide) (by decide) (by decide)
    (by decide) (by decide) (by decide) (by decide) (by decide)

/-- Claim C3 counterexample: A and B nonempty with no embedded literal " to "
substring, yet the extraction of the text A to B is not the pair A, B: a
leading case-insensitive "from " inside A is stripped first. -/
theorem C3_counterexample :
    ("From Paris" : String).data ≠ [] ∧ ("London" : String).data ≠ [] ∧
    containsLiteralTo ("From Paris" : String).data = false ∧
    containsLiteralTo ("London" : String).data = false ∧
    extractViaPattern ("From Paris" ++ " to " ++ "London") ≠ ["From Paris", "London"] ∧
    extractViaPattern ("From Paris" ++ " to " ++ "London") = ["Paris", "London"] := by decide

/-! ## Claim theorems, first batch -/

/-- Claim C8: extractViaPattern on "From Paris to London." strips the leading
case-insensitive "from " prefix of five characters and the trailing period,
then splits on the separator, yielding exactly the pair Paris, London. -/
theorem C8_from_paris_to_london :
    extractViaPattern "From Paris to London." = ["Paris", "London"] := by decide

/-- Claim C1 (evidence for the code bug): when exactly one location resolves
to a coordinate, the frontend pipeline does not centre the map on it; the
two-coordinate guard throws, the catch alerts the error, and no directions
call is issued. -/
theorem C1_single_resolved_location_errors (l : String) (c : Coord) (mode : String)
    (geo : String → Option Coord) (dir : List Coord → String → DirProxyResp)
    (hgeo : geo l = some c) :
    routerCore [l] mode geo dir = (FrontOutcome.needTwo, []) := by
  simp [routerCore, resolveAll, hgeo]

theorem C1_witness :
    routerCore ["Paris"] "driving" (fun _ => some (2, 48))
      (fun _ _ => ⟨true, some [], none⟩) = (FrontOutcome.needTwo, []) :=
  C1_single_resolved_location_errors "Paris" (2, 48) "driving" _ _ rfl

/-- Claim C5: against an upstream that answers every call with a 2xx and an
empty route list, both directions proxies report the no-routes 404 after
exactly one upstream call; an empty 2xx is never the retried condition. -/
theorem C5_zero_routes_no_retry (cs : List Coord) (profile : String)
    (up : Nat → DirUpResp)
    (hlen : 2 ≤ cs.length)
    (hup : ∀ n, (up n).ok = true ∧ (up n).routes = []) :
    dirOnRequestPost (CoordField.arr cs) profile up =
      (DirResult.err 404 "No routes found between the specified locations",
        [⟨normalizeProfile profile, cs⟩]) ∧
    workerHandleDirections (CoordField.arr cs) profile up =
      (DirResult.err 404 "No routes found between the specified locations",
        [⟨profile, cs⟩]) := by
  obtain ⟨h1, h2⟩ := hup 0
  constructor <;>
    simp [dirOnRequestPost, workerHandleDirections, h1, h2, Nat.not_lt.mpr hlen]

theorem C5_witness :
    dirOnRequestPost (CoordField.arr [(0, 0), (1, 1)]) "driving"
        (fun _ => ⟨true, 200, "", []⟩) =
      (DirResult.err 404 "No routes found between the specified locations",
        [⟨"driving", [(0, 0), (1, 1)]⟩]) ∧
    workerHandleDirections (CoordField.arr [(0, 0), (1, 1)]) "driving"
        (fun _ => ⟨true, 200, "", []⟩) =
      (DirResult.err 404 "No routes found between the specified locations",
        [⟨"driving", [(0, 0), (1, 1)]⟩]) :=
  C5_zero_routes_no_retry [(0, 0), (1, 1)] "driving" _ (by decide) (fun _ => ⟨rfl, rfl⟩)

/-- Claim C10: a missing, non-array, or shorter-than-two coordinates field is
answered with a 400 client error by all four proxy implementations, and no
upstream directions request is issued. -/
theorem C10_under_length_coordinates_rejected (cf : CoordField) (profile : String)
    (up : Nat → DirUpResp) (ax : AxiosOutcome)
    (hbad : cf = CoordField.absent ∨ cf = CoordField.nonArray ∨
      ∃ cs, cf = CoordField.arr cs ∧ cs.length < 2) :
    dirOnRequestPost cf profile up =
      (DirResult.err 400 "At least two valid coordinates are required", []) ∧
    workerHandleDirections cf profile up =
      (DirResult.err 400 "At least two valid coordinates are required", []) ∧
    apiWorkerHandleDirections cf profile up =
      (DirResult.err 400 "At least two valid coordinates are required", []) ∧
    serverDirections cf profile ax =
      (DirResult.err 400 "Invalid coordinates. At least 2 coordinates are required.", []) := by
  rcases hbad with h | h | ⟨cs, h, hlen⟩ <;> subst h
  · simp [dirOnRequestPost, workerHandleDirections, apiWorkerHandleDirections, serverDirections]
  · simp [dirOnRequestPost, workerHandleDirections, apiWorkerHandleDirections, serverDirections]
  · simp [dirOnRequestPost, workerHandleDirections, apiWorkerHandleDirections,
      serverDirections, hlen]

theorem C10_witness :
    dirOnRequestPost (CoordField.arr [(0, 0)]) "driving" (fun _ => ⟨true, 200, "", []⟩) =
      (DirResult.err 400 "At least two valid coordinates are required", []) ∧
    workerHandleDirections (CoordField.arr [(0, 0)]) "driving" (fun _ => ⟨true, 200, "", []⟩) =
      (DirResult.err 400 "At least two valid coordinates are required", []) ∧
    apiWorkerHandleDirections (CoordField.arr [(0, 0)]) "driving" (fun _ => ⟨true, 200, "", []⟩) =
      (DirResult.err 400 "At least two valid coordinates are required", []) ∧
    serverDirections (CoordField.arr [(0, 0)]) "driving" (AxiosOutcome.resp 200 []) =
      (DirResult.err 400 "Invalid coordinates. At least 2 coordinates are required.", []) :=
  C10_under_length_coordinates_rejected (CoordField.arr [(0, 0)]) "driving" _ _
    (Or.inr (Or.inr ⟨[(0, 0)], rfl, by decide⟩))

/-- Claim C7: when the language-model extraction attempt fails or times out,
the click handler recovers internally: both fallback branches reduce to the
same router run on the pattern-extracted locations with default driving
preferences, so the search continues and no extraction error reaches the
user. -/
theorem C7_llm_failure_recovers (input : String) (geo : String → Option Coord)
    (dir : List Coord → String → DirProxyResp) :
    clickHandler input NlpResult.failed geo dir =
      routerCore (extractViaPattern input) "driving" geo dir := by
  simp [clickHandler, getRouteCoordinatesArr, getRouteCoordinatesStr,
    extractLocationsWithRegex, effectiveMode]

/-! ## Resolution failure propagation -/

theorem resolveAll_error_of_failure (geo : String → Option Coord) :
    ∀ locations : List String, (∃ l ∈ locations, geo l = none) →
      ∃ l ∈ locations, geo l = none ∧ resolveAll geo locations = Except.error (unableMsg l)
  | [], h => absurd h (by simp)
  | l :: ls, h => by
    cases hg : geo l with
    | none => exact ⟨l, by simp, hg, by simp [resolveAll, hg]⟩
    | some c =>
      have hls : ∃ x ∈ ls, geo x = none := by
        rcases h with ⟨x, hx, hxn⟩
        rcases List.mem_cons.mp hx with rfl | hmem
        · rw [hg] at hxn; exact absurd hxn (by simp)
        · exact ⟨x, hmem, hxn⟩
      rcases resolveAll_error_of_failure geo ls hls with ⟨x, hxm, hxn, herr⟩
      exact ⟨x, List.mem_cons_of_mem _ hxm, hxn, by simp [resolveAll, hg, herr]⟩

/-- Claim C6: a geocode with zero upstream matches yields the 404 not-found
response, otherwise the first (top-ranked) feature's coordinate is taken; and
if any location of a search fails to resolve, the whole pipeline aborts with
the message naming a failing location and no directions call is issued. -/
theorem C6_geocode_first_match_and_abort :
    (∀ (loc : String) (upresp : GeoUpResp), loc ≠ "" → upresp.ok = true →
      (upresp.features = [] →
        geocodeOnRequestPost loc upresp =
          GeoProxyResult.err 404 "No results found for this location") ∧
      (∀ c rest, upresp.features = c :: rest →
        geocodeOnRequestPost loc upresp = GeoProxyResult.found c)) ∧
    (∀ (locations : List String) (mode : String) (geo : String → Option Coord)
        (dir : List Coord → String → DirProxyResp),
      (∃ l ∈ locations, geo l = none) →
      ∃ l ∈ locations, geo l = none ∧
        routerCore locations mode geo dir = (FrontOutcome.resolveError (unableMsg l), [])) := by
  constructor
  · intro loc upresp hloc hok
    constructor
    · intro hf; simp [geocodeOnRequestPost, hloc, hok, hf]
    · intro c rest hf; simp [geocodeOnRequestPost, hloc, hok, hf]
  · intro locations mode geo dir h
    rcases resolveAll_error_of_failure geo locations h with ⟨l, hm, hn, herr⟩
    refine ⟨l, hm, hn, ?_⟩
    have hlen : ¬ locations.length < 1 := by
      cases locations with
      | nil => simp at hm
      | cons a as => simp
    simp [routerCore, hlen, herr]

theorem C6_witness :
    geocodeOnRequestPost "Nowhereville12345xyz" ⟨true, 200, []⟩ =
      GeoProxyResult.err 404 "No results found for this location" ∧
    geocodeOnRequestPost "Paris" ⟨true, 200, [(2, 48)]⟩ = GeoProxyResult.found (2, 48) ∧
    (∃ l ∈ ["Nowhereville12345xyz", "Paris"],
      (fun s => if s = "Paris" then some ((2 : Int), (48 : Int)) else none) l = none ∧
      routerCore ["Nowhereville12345xyz", "Paris"] "driving"
        (fun s => if s = "Paris" then some ((2 : Int), (48 : Int)) else none)
        (fun _ _ => ⟨true, some [], none⟩) = (FrontOutcome.resolveError (unableMsg l), [])) :=
  ⟨(C6_geocode_first_match_and_abort.1 "Nowhereville12345xyz" ⟨true, 200, []⟩
      (by decide) rfl).1 rfl,
   (C6_geocode_first_match_and_abort.1 "Paris" ⟨true, 200, [(2, 48)]⟩
      (by decide) rfl).2 (2, 48) [] rfl,
   C6_geocode_first_match_and_abort.2 ["Nowhereville12345xyz", "Paris"] "driving" _ _
     ⟨"Nowhereville12345xyz", by simp, by decide⟩⟩

/-! ## Request shapes of the directions proxies -/

/-- Shape of the retry helper's request list: either the single identical
retry, or (only when the retry failed with a 422 for walking or cycling) the
identical retry followed by the coordinate-reduced final call. -/
theorem retryDirectionsRequest_spec (cs : List Coord) (np : String) (up : Nat → DirUpResp)
    (hlen : 2 ≤ cs.length) :
    (retryDirectionsRequest cs np up).2 = [⟨np, cs⟩] ∨
    ((retryDirectionsRequest cs np up).2 =
        [⟨np, cs⟩, ⟨np, [cs.headD (0, 0), cs.getLastD (0, 0)]⟩] ∧
      (np = "walking" ∨ np = "cycling") ∧ (up 1).ok = false ∧ (up 1).status = 422) := by
  by_cases h1 : (up 1).ok
  · cases hh : (up 1).routes.head? <;> left <;> simp [retryDirectionsRequest, h1, hh]
  · by_cases hc : (np = "walking" ∨ np = "cycling") ∧ (up 1).status = 422
    · by_cases h2 : (up 2).ok
      · cases hh : (up 2).routes.head? <;> right <;>
          exact ⟨by simp [retryDirectionsRequest, h1, hc, hlen, h2, hh],
            hc.1, by simpa using h1, hc.2⟩
      · exact Or.inr ⟨by simp [retryDirectionsRequest, h1, hc, hlen, h2],
          hc.1, by simpa using h1, hc.2⟩
    · left; simp [retryDirectionsRequest, h1, hc]

/-- Shape of the per-route handler's request list for a valid coordinate
array: one initial call, plus the retry helper's calls exactly when the first
answer was the 422 InvalidInput rejection. -/
theorem dirOnRequestPost_reqs (cs : List Coord) (profile : String) (up : Nat → DirUpResp)
    (hlen : 2 ≤ cs.length) :
    (dirOnRequestPost (CoordField.arr cs) profile up).2 = [⟨normalizeProfile profile, cs⟩] ∨
    ((dirOnRequestPost (CoordField.arr cs) profile up).2 =
        ⟨normalizeProfile profile, cs⟩ ::
          (retryDirectionsRequest cs (normalizeProfile profile) up).2 ∧
      (up 0).ok = false ∧ (up 0).status = 422 ∧ (up 0).code = "InvalidInput") := by
  have hn : ¬ cs.length < 2 := Nat.not_lt.mpr hlen
  by_cases h0 : (up 0).ok
  · cases hh : (up 0).routes.head? <;> left <;> simp [dirOnRequestPost, hn, h0, hh]
  · by_cases hc : (up 0).status = 422 ∧ (up 0).code = "InvalidInput"
    · exact Or.inr ⟨by simp [dirOnRequestPost, hn, h0, hc], by simpa using h0, hc.1, hc.2⟩
    · left; simp [dirOnRequestPost, hn, h0, hc]

/-- Shape of the worker handler's request list: one call, or the identical
retry after the 422 InvalidInput rejection; never a third call. -/
theorem workerHandleDirections_reqs (cs : List Coord) (profile : String)
    (up : Nat → DirUpResp) (hlen : 2 ≤ cs.length) :
    (workerHandleDirections (CoordField.arr cs) profile up).2 = [⟨profile, cs⟩] ∨
    (workerHandleDirections (CoordField.arr cs) profile up).2 =
      [⟨profile, cs⟩, ⟨profile, cs⟩] := by
  have hn : ¬ cs.length < 2 := Nat.not_lt.mpr hlen
  by_cases h0 : (up 0).ok
  · cases hh : (up 0).routes.head? <;> left <;> simp [workerHandleDirections, hn, h0, hh]
  · by_cases hc : (up 0).status = 422 ∧ (up 0).code = "InvalidInput"
    · by_cases h1 : (up 1).ok
      · cases hh : (up 1).routes.head? <;> right <;>
          simp [workerHandleDirections, workerRetryDirections, hn, h0, hc, h1, hh]
      · right; simp [workerHandleDirections, workerRetryDirections, hn, h0, hc, h1]
    · left; simp [workerHandleDirections, hn, h0, hc]

/-- Shape of the server handler's request list for a valid coordinate array:
no upstream call on an axios setup error, otherwise exactly one call carrying
the raw profile. -/
theorem serverDirections_reqs (cs : List Coord) (profile : String) (ax : AxiosOutcome)
    (hlen : 2 ≤ cs.length) :
    (serverDirections (CoordField.arr cs) profile ax).2 = [] ∨
    (serverDirections (CoordField.arr cs) profile ax).2 = [⟨profile, cs⟩] := by
  have hn : ¬ cs.length < 2 := Nat.not_lt.mpr hlen
  cases ax with
  | resp s routes =>
    cases hh : routes.head? <;> right <;> simp [serverDirections, hn, hh]
  | httpError s => right; simp [serverDirections, hn]
  | noResponse => right; simp [serverDirections, hn]
  | setupError => left; simp [serverDirections, hn]

/-- Claim C4 (amended): the per-route edge function normalises the profile
(walk and on foot become walking, bicycle and bike become cycling, anything
else outside the valid set becomes driving) before every upstream call, and
bike in particular reaches the upstream as cycling; the single-dispatcher
worker, its api duplicate, and the express server all forward the profile to
the upstream unnormalised. -/
theorem C4_profile_normalization (profile : String) (cs : List Coord)
    (up : Nat → DirUpResp) (ax : AxiosOutcome) (hlen : 2 ≤ cs.length) :
    normalizeProfile "walk" = "walking" ∧
    normalizeProfile "on foot" = "walking" ∧
    normalizeProfile "bicycle" = "cycling" ∧
    normalizeProfile "bike" = "cycling" ∧
    (profile ∉ ["driving", "walking", "cycling", "walk", "on foot", "bicycle", "bike"] →
      normalizeProfile profile = "driving") ∧
    (∀ r ∈ (dirOnRequestPost (CoordField.arr cs) profile up).2,
      r.profile = normalizeProfile profile) ∧
    (∀ r ∈ (workerHandleDirections (CoordField.arr cs) profile up).2,
      r.profile = profile) ∧
    (∀ r ∈ (apiWorkerHandleDirections (CoordField.arr cs) profile up).2,
      r.profile = profile) ∧
    (∀ r ∈ (serverDirections (CoordField.arr cs) profile ax).2,
      r.profile = profile) := by
  refine ⟨by decide, by decide, by decide, by decide, ?_, ?_, ?_, ?_, ?_⟩
  · intro h
    simp only [List.mem_cons, List.mem_singleton, not_or] at h
    obtain ⟨h1, h2, h3, h4, h5, h6, h7⟩ := h
    simp [normalizeProfile, validProfiles, h1, h2, h3, h4, h5, h6, h7]
  · intro r hr
    rcases dirOnRequestPost_reqs cs profile up hlen with h | ⟨h, -⟩ <;> rw [h] at hr
    · simp at hr; rw [hr]
    · rcases List.mem_cons.mp hr with rfl | hr2
      · rfl
      · rcases retryDirectionsRequest_spec cs (normalizeProfile profile) up hlen
          with h2 | ⟨h2, -⟩ <;> rw [h2] at hr2 <;> simp at hr2
        · rw [hr2]
        · rcases hr2 with rfl | rfl <;> rfl
  · intro r hr
    rcases workerHandleDirections_reqs cs profile up hlen with h | h <;> rw [h] at hr <;>
      simp at hr
    · rw [hr]
    · rcases hr with rfl | rfl <;> rfl
  · intro r hr
    have hr2 : r ∈ (workerHandleDirections (CoordField.arr cs) profile up).2 := hr
    rcases workerHandleDirections_reqs cs profile up hlen with h | h <;> rw [h] at hr2 <;>
      simp at hr2
    · rw [hr2]
    · rcases hr2 with rfl | rfl <;> rfl
  · intro r hr
    rcases serverDirections_reqs cs profile ax hlen with h | h <;> rw [h] at hr <;>
      simp at hr
    rw [hr]

/-- Claim C4 counterexample: the single-dispatcher worker sends the profile
bike to the upstream unchanged; it is not normalised to cycling there. -/
theorem C4_counterexample :
    (workerHandleDirections (CoordField.arr [(0, 0), (1, 1)]) "bike"
        (fun _ => ⟨true, 200, "", [⟨[(0, 0)]⟩]⟩)).2 = [⟨"bike", [(0, 0), (1, 1)]⟩] ∧
    ("bike" : String) ≠ "cycling" := by decide

theorem C4_witness :
    normalizeProfile "walk" = "walking" ∧
    normalizeProfile "on foot" = "walking" ∧
    normalizeProfile "bicycle" = "cycling" ∧
    normalizeProfile "bike" = "cycling" ∧
    (("bike" : String) ∉ ["driving", "walking", "cycling", "walk", "on foot", "bicycle", "bike"] →
      normalizeProfile "bike" = "driving") ∧
    (∀ r ∈ (dirOnRequestPost (CoordField.arr [(0, 0), (1, 1)]) "bike"
        (fun _ => ⟨true, 200, "", [⟨[(0, 0)]⟩]⟩)).2, r.profile = normalizeProfile "bike") ∧
    (∀ r ∈ (workerHandleDirections (CoordField.arr [(0, 0), (1, 1)]) "bike"
        (fun _ => ⟨true, 200, "", [⟨[(0, 0)]⟩]⟩)).2, r.profile = "bike") ∧
    (∀ r ∈ (apiWorkerHandleDirections (CoordField.arr [(0, 0), (1, 1)]) "bike"
        (fun _ => ⟨true, 200, "", [⟨[(0, 0)]⟩]⟩)).2, r.profile = "bike") ∧
    (∀ r ∈ (serverDirections (CoordField.arr [(0, 0), (1, 1)]) "bike"
        (AxiosOutcome.resp 200 [⟨[(0, 0)]⟩])).2, r.profile = "bike") :=
  C4_profile_normalization "bike" [(0, 0), (1, 1)] _ (AxiosOutcome.resp 200 [⟨[(0, 0)]⟩])
    (by decide)

/-- Claim C2 (amended): after the 422 InvalidInput rejection the per-route
proxy retries once with identical coordinates, profile and parameters; when
that retry itself fails with a 422 and the normalised profile is walking or
cycling, one further call is issued whose coordinate list is reduced to the
first and last waypoints; at most three upstream calls ever occur, and any
retry at all presupposes the initial 422 InvalidInput rejection. -/
theorem C2_retry_policy (cs : List Coord) (profile : String) (up : Nat → DirUpResp)
    (hlen : 2 ≤ cs.length) :
    (dirOnRequestPost (CoordField.arr cs) profile up).2.length ≤ 3 ∧
    (∀ r ∈ (dirOnRequestPost (CoordField.arr cs) profile up).2.take 2,
      r = ⟨normalizeProfile profile, cs⟩) ∧
    (∀ r ∈ (dirOnRequestPost (CoordField.arr cs) profile up).2.drop 2,
      r = ⟨normalizeProfile profile, [cs.headD (0, 0), cs.getLastD (0, 0)]⟩ ∧
        (normalizeProfile profile = "walking" ∨ normalizeProfile profile = "cycling") ∧
        (up 1).ok = false ∧ (up 1).status = 422) ∧
    (2 ≤ (dirOnRequestPost (CoordField.arr cs) profile up).2.length →
      (up 0).ok = false ∧ (up 0).status = 422 ∧ (up 0).code = "InvalidInput") := by
  rcases dirOnRequestPost_reqs cs profile up hlen with h | ⟨h, hcond⟩
  · rw [h]
    refine ⟨by simp, ?_, by simp, by simp⟩
    intro r hr; simpa using hr
  · rw [h]
    rcases retryDirectionsRequest_spec cs (normalizeProfile profile) up hlen
      with h2 | ⟨h2, hc2⟩ <;> rw [h2]
    · refine ⟨by simp, ?_, by simp, fun _ => hcond⟩
      intro r hr; simp at hr; rcases hr with rfl | rfl <;> rfl
    · refine ⟨by simp, ?_, ?_, fun _ => hcond⟩
      · intro r hr; simp at hr; rcases hr with rfl | rfl <;> rfl
      · intro r hr; simp at hr; rw [hr]
        exact ⟨by simp, hc2.1, hc2.2.1, hc2.2.2⟩

/-- Claim C2 counterexample: with the walking profile, a 422 InvalidInput
first answer and a plain 422 on the retry, the per-route proxy issues a third
upstream call whose coordinate list is reduced to first and last, so an error
is retried twice and with a different request shape. -/
theorem C2_counterexample :
    (dirOnRequestPost (CoordField.arr [(0, 0), (1, 1), (2, 2)]) "walking"
        (fun n => if n = 0 then ⟨false, 422, "InvalidInput", []⟩
          else ⟨false, 422, "", []⟩)).2 =
      [⟨"walking", [(0, 0), (1, 1), (2, 2)]⟩, ⟨"walking", [(0, 0), (1, 1), (2, 2)]⟩,
        ⟨"walking", [(0, 0), (2, 2)]⟩] ∧
    ([(0, 0), (2, 2)] : List Coord) ≠ [(0, 0), (1, 1), (2, 2)] := by decide

theorem C2_witness :
    (dirOnRequestPost (CoordField.arr [(0, 0), (1, 1)]) "driving"
        (fun _ => ⟨true, 200, "", [⟨[(0, 0)]⟩]⟩)).2.length ≤ 3 ∧
    (∀ r ∈ (dirOnRequestPost (CoordField.arr [(0, 0), (1, 1)]) "driving"
        (fun _ => ⟨true, 200, "", [⟨[(0, 0)]⟩]⟩)).2.take 2,
      r = ⟨normalizeProfile "driving", [(0, 0), (1, 1)]⟩) ∧
    (∀ r ∈ (dirOnRequestPost (CoordField.arr [(0, 0), (1, 1)]) "driving"
        (fun _ => ⟨true, 200, "", [⟨[(0, 0)]⟩]⟩)).2.drop 2,
      r = ⟨normalizeProfile "driving",
          [([(0, 0), (1, 1)] : List Coord).headD (0, 0),
            ([(0, 0), (1, 1)] : List Coord).getLastD (0, 0)]⟩ ∧
        (normalizeProfile "driving" = "walking" ∨ normalizeProfile "driving" = "cycling") ∧
        ((fun (_ : Nat) => (⟨true, 200, "", [⟨[(0, 0)]⟩]⟩ : DirUpResp)) 1).ok = false ∧
        ((fun (_ : Nat) => (⟨true, 200, "", [⟨[(0, 0)]⟩]⟩ : DirUpResp)) 1).status = 422) ∧
    (2 ≤ (dirOnRequestPost (CoordField.arr [(0, 0), (1, 1)]) "driving"
        (fun _ => ⟨true, 200, "", [⟨[(0, 0)]⟩]⟩)).2.length →
      ((fun (_ : Nat) => (⟨true, 200, "", [⟨[(0, 0)]⟩]⟩ : DirUpResp)) 0).ok = false ∧
      ((fun (_ : Nat) => (⟨true, 200, "", [⟨[(0, 0)]⟩]⟩ : DirUpResp)) 0).status = 422 ∧
      ((fun (_ : Nat) => (⟨true, 200, "", [⟨[(0, 0)]⟩]⟩ : DirUpResp)) 0).code = "InvalidInput") :=
  C2_retry_policy [(0, 0), (1, 1)] "driving" _ (by decide)

end RouteViz
